import Mathlib

/-!
Verification of the rate-resolution and caching core of the currency/crypto
converter service (`main.py`).

The embedding models the module as pure functions:

* the process-wide TTL cache `CACHE` becomes an explicit `Cache` value
  (`String → Option CacheEntry`) threaded through every operation, with the
  wall clock `time.time()` passed as an explicit rational timestamp;
* the two upstream HTTP providers become an `Env` record mapping each request
  to its outcome (`FetchResult`): parsed JSON payload, HTTP error status
  (what `raise_for_status` turns into `httpx.HTTPStatusError`), or a network
  failure (`httpx.RequestError`);
* every `raise HTTPException(...)` becomes an `Except.error` carrying the
  status code and detail string.  Exception-handler semantics are modelled
  faithfully: `fastapi.HTTPException` is a subclass of `Exception`, so an
  `HTTPException` raised *inside* a resolver's `try` block is caught by its
  trailing `except Exception` clause and re-raised as a 500 wrapper whose
  detail embeds `str(e)` (starlette renders this as "status: detail");
* resolvers additionally return an event trace (`List Ev`) recording each
  upstream network request and each cache write with its TTL, so that claims
  about "number of upstream calls" and "which keys get written" are statable;
* Python floats are modelled as exact rationals `ℚ`.
-/

/-- One entry of the shared in-memory cache: `{"value": ..., "expires_at": ...}`. -/
structure CatalogEntry where
  id : String
  symbol : String
deriving DecidableEq, Repr

/-- The values the program ever stores in `CACHE`: numeric rates/prices and the
CoinGecko coins catalog (a JSON array of `{id, symbol}` objects). -/
inductive CacheVal where
  | num (q : ℚ)
  | list (l : List CatalogEntry)
deriving DecidableEq, Repr

structure CacheEntry where
  value : CacheVal
  expires_at : ℚ
deriving DecidableEq, Repr

/-- The process-wide `CACHE` dict, as a map from key to entry. -/
def Cache : Type := String → Option CacheEntry

def emptyCache : Cache := fun _ => none

/-- `CACHE_TTL_SECONDS = 60 * 15` from the configuration section. -/
def CACHE_TTL_SECONDS : ℚ := 60 * 15

/-- `cache_get(key)`: returns the stored value unless the entry is missing or
expired; an expired entry (`time.time() > entry["expires_at"]`, strictly) is
popped.  Returns the looked-up value together with the possibly-updated cache. -/
def cache_get (c : Cache) (t : ℚ) (key : String) : Option CacheVal × Cache :=
  match c key with
  | none => (none, c)
  | some entry =>
    if t > entry.expires_at then
      (none, fun k => if k = key then none else c k)
    else
      (some entry.value, c)

/-- `cache_set(key, value, ttl)`: stores `value` with `expires_at = time.time() + ttl`.
The source's default `ttl` is `CACHE_TTL_SECONDS`; callers here pass it explicitly. -/
def cache_set (c : Cache) (t : ℚ) (key : String) (value : CacheVal) (ttl : ℚ) : Cache :=
  fun k => if k = key then some ⟨value, t + ttl⟩ else c k

@[simp]
theorem cache_set_same (c : Cache) (t : ℚ) (key : String) (v : CacheVal) (ttl : ℚ) :
    cache_set c t key v ttl key = some ⟨v, t + ttl⟩ := by
  simp [cache_set]

theorem cache_set_other (c : Cache) (t : ℚ) (key k : String) (v : CacheVal) (ttl : ℚ)
    (h : k ≠ key) : cache_set c t key v ttl k = c k := by
  simp [cache_set, h]

/-- A `cache_get` never changes the cache at keys other than the queried one. -/
theorem cache_get_preserves_other (c : Cache) (t : ℚ) (key k : String) (h : k ≠ key) :
    (cache_get c t key).2 k = c k := by
  unfold cache_get
  match hc : c key with
  | none => rfl
  | some entry =>
    by_cases ht : t > entry.expires_at <;> simp [ht, h]

/- ------------------------------------------------------------------ -/
/- C4: behaviour of the cache around the expiry boundary.             -/
/- ------------------------------------------------------------------ -/

/-- [C4, counterexample] The spec claims `cache_get` returns absent for every
call at time `t ≥ t0 + ttl`.  At `t = t0 + ttl` exactly, the code's expiry test
`time.time() > entry["expires_at"]` is strict, so the entry is still served:
after `cache_set` at `t0 = 0` with `ttl = 1`, a `cache_get` at `t = 1` returns
the stored value, not absent. -/
theorem cache_get_at_exact_expiry_cex :
    (cache_get (cache_set emptyCache 0 "k" (CacheVal.num 1) 1) 1 "k").1
      = some (CacheVal.num 1)
    ∧ (cache_get (cache_set emptyCache 0 "k" (CacheVal.num 1) 1) 1 "k").1 ≠ none := by
  constructor
  · simp [cache_get, cache_set, emptyCache]
  · simp [cache_get, cache_set, emptyCache]

/-- [C4, amended] After `cache_set(k, v, ttl)` at time `t0`, `cache_get(k)`
returns `v` for every call at time `t ≤ t0 + ttl` (in particular for all
`t < t0 + ttl`), and for every call at time `t > t0 + ttl` it returns absent
and removes the entry from the cache (expiry is strict: an entry is dropped
only when the clock strictly exceeds `expires_at`). -/
theorem cache_ttl_invariant (c : Cache) (t0 ttl t : ℚ) (k : String) (v : CacheVal) :
    (t ≤ t0 + ttl →
      (cache_get (cache_set c t0 k v ttl) t k).1 = some v)
    ∧ (t0 + ttl < t →
      (cache_get (cache_set c t0 k v ttl) t k).1 = none
      ∧ (cache_get (cache_set c t0 k v ttl) t k).2 k = none) := by
  constructor
  · intro hle
    have hnot : ¬ (t > t0 + ttl) := not_lt.mpr hle
    simp [cache_get, cache_set, hnot]
  · intro hlt
    simp [cache_get, cache_set, hlt]

/-- [C4, witness] Instantiation of the amended invariant at `t0 = 0`, `ttl = 2`:
a read at `t = 1` returns the value, a read at `t = 3` is absent and purges. -/
theorem cache_ttl_invariant_witness :
    (cache_get (cache_set emptyCache 0 "k" (CacheVal.num 7) 2) 1 "k").1
      = some (CacheVal.num 7)
    ∧ ((cache_get (cache_set emptyCache 0 "k" (CacheVal.num 7) 2) 3 "k").1 = none
      ∧ (cache_get (cache_set emptyCache 0 "k" (CacheVal.num 7) 2) 3 "k").2 "k" = none) :=
  ⟨(cache_ttl_invariant emptyCache 0 2 1 "k" (CacheVal.num 7)).1 (by norm_num),
   (cache_ttl_invariant emptyCache 0 2 3 "k" (CacheVal.num 7)).2 (by norm_num)⟩

/- ------------------------------------------------------------------ -/
/- Upstream environment, exceptions, event traces.                    -/
/- ------------------------------------------------------------------ -/

/-- An upstream network request, identified structurally (the source builds the
corresponding URL strings from these same components). -/
inductive Req where
  | fiat (base_u : String)
  | price (coin_id vs_currency : String)
  | catalog
deriving DecidableEq, Repr

/-- Observable effects of one resolver call: upstream requests issued and cache
writes performed (with the TTL passed to `cache_set`). -/
inductive Ev where
  | req (r : Req)
  | wr (key : String) (ttl : ℚ)
deriving DecidableEq, Repr

def isReq : Ev → Bool
  | Ev.req _ => true
  | _ => false

def isCatalogReq : Ev → Bool
  | Ev.req Req.catalog => true
  | _ => false

def isPriceReq : Ev → Bool
  | Ev.req (Req.price _ _) => true
  | _ => false

/-- Number of upstream network requests in a trace. -/
def countReqs (tr : List Ev) : ℕ := (tr.filter isReq).length

/-- Number of `coins/list` catalog fetches in a trace. -/
def countCatalogReqs (tr : List Ev) : ℕ := (tr.filter isCatalogReq).length

/-- Whether the trace contains a `simple/price` request. -/
def hasPriceReq (tr : List Ev) : Bool := tr.any isPriceReq

/-- A raised `fastapi.HTTPException(status_code, detail)`. -/
structure HTTPException where
  status_code : ℕ
  detail : String
deriving DecidableEq, Repr

/-- `str(e)` for a `fastapi`/`starlette` `HTTPException`: `"{status_code}: {detail}"`. -/
def strExc (e : HTTPException) : String :=
  toString e.status_code ++ ": " ++ e.detail

/-- Outcome of one upstream HTTP request: parsed body, non-2xx status (which
`raise_for_status()` turns into `httpx.HTTPStatusError`), or a connection-level
failure (`httpx.RequestError`, including timeouts). -/
inductive FetchResult (α : Type) where
  | ok (data : α)
  | httpError (status : ℕ)
  | netError (msg : String)
deriving DecidableEq, Repr

/-- Parsed body of the ExchangeRate-API response: `result`, optional `rates`
table, optional `error` field. -/
structure FiatData where
  result : String
  rates : Option (List (String × ℚ))
  error : Option String
deriving DecidableEq, Repr

/-- Parsed body of a CoinGecko `simple/price` response:
`{<id>: {<currency>: price}}`. -/
abbrev PriceData : Type := List (String × List (String × ℚ))

/-- The two upstream providers, as a map from request to outcome.  One fixed
environment per resolver call (the world does not change mid-call). -/
structure Env where
  fiat : String → FetchResult FiatData
  price : String → String → FetchResult PriceData
  catalog : FetchResult (List CatalogEntry)

/-- `data.get(coin_id, {}).get(vs_currency_lower)`. -/
def priceOf (data : PriceData) (coin_id vs : String) : Option ℚ :=
  ((data.lookup coin_id).getD []).lookup vs

/-- The static `CRYPTO_SYMBOL_MAP` from the source. -/
def CRYPTO_SYMBOL_MAP : List (String × String) :=
  [("BTC", "bitcoin"), ("ETH", "ethereum"), ("USDT", "tether"),
   ("BNB", "binancecoin"), ("ADA", "cardano"), ("SOL", "solana"),
   ("DOGE", "dogecoin"), ("XRP", "ripple"), ("DOT", "polkadot"),
   ("LTC", "litecoin"), ("USDC", "usd-coin"), ("DAI", "dai"),
   ("TRX", "tron"), ("SHIB", "shiba-inu"), ("AVAX", "avalanche-2"),
   ("LINK", "chainlink"), ("UNI", "uniswap"), ("BCH", "bitcoin-cash"),
   ("MATIC", "polygon"), ("HBAR", "hedera-hashgraph")]

deriving instance DecidableEq for Except

/-- Result type of a resolver call: outcome, final cache, event trace. -/
def RunResult : Type := Except HTTPException CacheVal × Cache × List Ev

/- ------------------------------------------------------------------ -/
/- Fiat rate resolver (`get_fiat_rate`).                              -/
/- ------------------------------------------------------------------ -/

/-- Python's `str.upper()` (resp. `lower()`), character by character.  This is
what `String.toUpper`/`String.toLower` compute; restated structurally over the
character list so that proofs and ground evaluation can unfold it. -/
def pyUpper (s : String) : String := ⟨s.data.map Char.toUpper⟩

def pyLower (s : String) : String := ⟨s.data.map Char.toLower⟩

/- Ground evaluations of the normalizers on the identifiers that appear in the
concrete scenarios below (stated as rewrite rules because `Char.toUpper` has no
`simp` support). -/

@[simp] theorem pyUpper_usd : pyUpper "usd" = "USD" := by decide
@[simp] theorem pyUpper_USD : pyUpper "USD" = "USD" := by decide
@[simp] theorem pyUpper_eur : pyUpper "eur" = "EUR" := by decide
@[simp] theorem pyUpper_EuR : pyUpper "EuR" = "EUR" := by decide
@[simp] theorem pyUpper_EUR : pyUpper "EUR" = "EUR" := by decide
@[simp] theorem pyUpper_xyz : pyUpper "xyz" = "XYZ" := by decide
@[simp] theorem pyUpper_btc : pyUpper "btc" = "BTC" := by decide
@[simp] theorem pyUpper_BTC : pyUpper "BTC" = "BTC" := by decide
@[simp] theorem pyUpper_FOO : pyUpper "FOO" = "FOO" := by decide
@[simp] theorem pyUpper_foo : pyUpper "foo" = "FOO" := by decide
@[simp] theorem pyUpper_bar : pyUpper "bar" = "BAR" := by decide
@[simp] theorem pyLower_usd : pyLower "usd" = "usd" := by decide
@[simp] theorem pyLower_USD : pyLower "USD" = "usd" := by decide

/-- The cache key `f"fiat:{base_u}:{target_u}"`. -/
def fiatKey (base target : String) : String :=
  "fiat:" ++ pyUpper base ++ ":" ++ pyUpper target

/-- 504 raised on `httpx.RequestError` while contacting ExchangeRate-API. -/
def fiatNetExc (msg : String) : HTTPException :=
  ⟨504, "Timeout or network error connecting to ExchangeRate-API: " ++ msg⟩

/-- 502 raised on `httpx.HTTPStatusError` while contacting ExchangeRate-API. -/
def fiatHttpExc (status : ℕ) : HTTPException :=
  ⟨502, "Failed to fetch fiat rates (HTTP Error " ++ toString status ++ ")"⟩

/-- The catch-all `except Exception` of `get_fiat_rate`: an `HTTPException`
raised inside the `try` block is itself an `Exception`, so it is re-raised
wrapped as a 500. -/
def wrapFiat500 (e : HTTPException) : HTTPException :=
  ⟨500, "Internal server error while processing fiat rates: " ++ strExc e⟩

/-- `data.get("error") or "Unknown error"` (`None` and the empty string are
both falsy). -/
def orUnknown : Option String → String
  | none => "Unknown error"
  | some s => if s = "" then "Unknown error" else s

/-- Body of `get_fiat_rate`'s `try` block after a successful HTTP fetch:
result check, rates-table check (absent or empty is falsy), target lookup.
Errors here are the `HTTPException`s raised inside the `try` block, before
the catch-all wraps them. -/
def fiatProcess (data : FiatData) (target_u : String) : Except HTTPException ℚ :=
  if data.result ≠ "success" then
    .error ⟨502, "ExchangeRate-API failed: " ++ orUnknown data.error⟩
  else
    match data.rates with
    | none => .error ⟨502, "Unexpected response structure from ExchangeRate-API"⟩
    | some rs =>
      if rs = [] then
        .error ⟨502, "Unexpected response structure from ExchangeRate-API"⟩
      else
        match rs.lookup target_u with
        | none => .error ⟨400, "Invalid currency code: " ++ target_u⟩
        | some rate => .ok rate

/-- Cache-miss continuation of `get_fiat_rate`: fetch, process, wrap in-try
exceptions as 500, cache the extracted rate on success. -/
def fiatFetch (env : Env) (c : Cache) (t : ℚ) (key base_u target_u : String) : RunResult :=
  match env.fiat base_u with
  | .netError msg => (.error (fiatNetExc msg), c, [Ev.req (Req.fiat base_u)])
  | .httpError s => (.error (fiatHttpExc s), c, [Ev.req (Req.fiat base_u)])
  | .ok data =>
    match fiatProcess data target_u with
    | .error e => (.error (wrapFiat500 e), c, [Ev.req (Req.fiat base_u)])
    | .ok rate =>
      (.ok (.num rate),
       cache_set c t key (.num rate) CACHE_TTL_SECONDS,
       [Ev.req (Req.fiat base_u), Ev.wr key CACHE_TTL_SECONDS])

/-- `get_fiat_rate(base, target)`: normalize, consult the cache, else fetch. -/
def get_fiat_rate (env : Env) (c : Cache) (t : ℚ) (base target : String) : RunResult :=
  match (cache_get c t (fiatKey base target)).1 with
  | some v => (.ok v, (cache_get c t (fiatKey base target)).2, [])
  | none =>
    fiatFetch env (cache_get c t (fiatKey base target)).2 t
      (fiatKey base target) (pyUpper base) (pyUpper target)

/- ------------------------------------------------------------------ -/
/- A concrete upstream world shared by several ground evaluations.    -/
/- ------------------------------------------------------------------ -/

/-- ExchangeRate-API answers `{result: "success", rates: {"EUR": 0.9}}` for any
base; the crypto provider is unreachable (irrelevant for fiat scenarios). -/
def envFiatA : Env :=
  { fiat := fun _ => .ok ⟨"success", some [("EUR", (9 : ℚ)/10)], none⟩,
    price := fun _ _ => .netError "offline",
    catalog := .netError "offline" }

/- ------------------------------------------------------------------ -/
/- C1: invalid target currency code.                                  -/
/- ------------------------------------------------------------------ -/

/-- [C1, code evaluated at the failing input] With the upstream reporting
`result: "success"` and a rates table without `"XYZ"`, `get_fiat_rate("usd","xyz")`
raises `HTTPException(status_code=400, detail="Invalid currency code: XYZ")` at
line 99 — but that raise sits inside the `try` block, and `fastapi.HTTPException`
is a subclass of `Exception`, so the trailing `except Exception` handler
(line 105) catches it and re-raises `HTTPException(500, "Internal server error
while processing fiat rates: 400: Invalid currency code: XYZ")`.  The caller
observes a 500 internal error, not the 400 client-facing validation error the
code itself (comment at line 98) and the spec intend. -/
theorem fiat_invalid_code_becomes_500 :
    (get_fiat_rate envFiatA emptyCache 0 "usd" "xyz").1
      = .error ⟨500,
          "Internal server error while processing fiat rates: 400: Invalid currency code: XYZ"⟩ := by
  simp [get_fiat_rate, fiatFetch, fiatProcess, fiatKey, cache_get, emptyCache,
    envFiatA, wrapFiat500, strExc, List.lookup]
  decide

/- ------------------------------------------------------------------ -/
/- C7: fiat idempotence within the TTL window.                        -/
/- ------------------------------------------------------------------ -/

/-- [C7, counterexample] The claim quantifies over *every* successful
`get_fiat_rate` call.  A successful call can itself be a cache hit on an entry
written earlier with almost-elapsed TTL; such a call does not refresh the
entry, so a second call inside the claimed 900-second window can miss, issue
an upstream request, and return a different rate.  Concretely: the pair is
pre-cached with value 5 expiring at time 1; a call at `t0 = 0` succeeds (hit,
zero upstream calls — already contradicting "exactly one upstream call across
the two resolutions"), and the call at `t = 2 < t0 + 900` fetches upstream
(one request) and returns 9/10 ≠ 5. -/
theorem fiat_idempotence_cex :
    (get_fiat_rate envFiatA
        (cache_set emptyCache 0 (fiatKey "usd" "eur") (CacheVal.num 5) 1) 0 "usd" "eur").1
      = .ok (CacheVal.num 5)
    ∧ countReqs (get_fiat_rate envFiatA
        (cache_set emptyCache 0 (fiatKey "usd" "eur") (CacheVal.num 5) 1) 0 "usd" "eur").2.2 = 0
    ∧ (2 : ℚ) < 0 + CACHE_TTL_SECONDS
    ∧ (get_fiat_rate envFiatA
        (get_fiat_rate envFiatA
          (cache_set emptyCache 0 (fiatKey "usd" "eur") (CacheVal.num 5) 1) 0 "usd" "eur").2.1
        2 "usd" "eur").1 = .ok (CacheVal.num ((9 : ℚ)/10))
    ∧ countReqs (get_fiat_rate envFiatA
        (get_fiat_rate envFiatA
          (cache_set emptyCache 0 (fiatKey "usd" "eur") (CacheVal.num 5) 1) 0 "usd" "eur").2.1
        2 "usd" "eur").2.2 = 1
    ∧ CacheVal.num ((9 : ℚ)/10) ≠ CacheVal.num 5 := by
  refine ⟨?_, ?_, ?_, ?_, ?_, ?_⟩ <;>
    norm_num [get_fiat_rate, fiatFetch, fiatProcess, fiatKey, cache_get, cache_set,
      emptyCache, envFiatA, List.lookup, countReqs, isReq, List.filter, CACHE_TTL_SECONDS]

/-- Equation lemma: a fresh cache hit returns the stored value unchanged, with
no upstream request and no cache modification. -/
theorem get_fiat_rate_hit (env : Env) (c : Cache) (t : ℚ) (base target : String)
    (entry : CacheEntry) (hc : c (fiatKey base target) = some entry)
    (ht : ¬ t > entry.expires_at) :
    get_fiat_rate env c t base target = (.ok entry.value, c, []) := by
  unfold get_fiat_rate cache_get
  rw [hc]
  simp [ht]

/-- Equation lemma: on a cache miss with a successful fetch and extraction, the
resolver returns the extracted rate, writes it under the pair key with the
default TTL, and issues exactly the one upstream request. -/
theorem get_fiat_rate_fetch_ok (env : Env) (c : Cache) (t : ℚ) (base target : String)
    (data : FiatData) (rate : ℚ)
    (hmiss : (cache_get c t (fiatKey base target)).1 = none)
    (hf : env.fiat (pyUpper base) = .ok data)
    (hp : fiatProcess data (pyUpper target) = .ok rate) :
    get_fiat_rate env c t base target =
      (.ok (.num rate),
       cache_set (cache_get c t (fiatKey base target)).2 t (fiatKey base target)
         (.num rate) CACHE_TTL_SECONDS,
       [Ev.req (Req.fiat (pyUpper base)), Ev.wr (fiatKey base target) CACHE_TTL_SECONDS]) := by
  unfold get_fiat_rate fiatFetch
  rw [hmiss]
  dsimp only
  rw [hf]
  dsimp only
  rw [hp]

/-- [C7, amended] After a `get_fiat_rate(base, target)` call that succeeded *and
fetched from upstream* (equivalently: whose resolution was not itself a cache
hit, so its trace is non-empty), that first call issued exactly one upstream
request, and every subsequent call for the same pair (any letter case) at a
time `t < t0 + CACHE_TTL_SECONDS` returns the same cached rate and issues no
upstream network request — exactly one upstream call across the two
resolutions. -/
theorem fiat_cached_pair_idempotent
    (env : Env) (c : Cache) (t0 t : ℚ) (base target base2 target2 : String) (v : CacheVal)
    (h1 : (get_fiat_rate env c t0 base target).1 = .ok v)
    (h2 : (get_fiat_rate env c t0 base target).2.2 ≠ [])
    (hb : pyUpper base2 = pyUpper base)
    (htg : pyUpper target2 = pyUpper target)
    (ht : t < t0 + CACHE_TTL_SECONDS) :
    countReqs (get_fiat_rate env c t0 base target).2.2 = 1
    ∧ (get_fiat_rate env (get_fiat_rate env c t0 base target).2.1 t base2 target2).1 = .ok v
    ∧ countReqs (get_fiat_rate env (get_fiat_rate env c t0 base target).2.1 t base2 target2).2.2
        = 0 := by
  have hkey : fiatKey base2 target2 = fiatKey base target := by
    simp [fiatKey, hb, htg]
  cases hg : (cache_get c t0 (fiatKey base target)).1 with
  | some v0 =>
    exfalso
    apply h2
    unfold get_fiat_rate
    rw [hg]
  | none =>
    cases hf : env.fiat (pyUpper base) with
    | netError msg =>
      exfalso
      unfold get_fiat_rate fiatFetch at h1
      rw [hg] at h1
      dsimp only at h1
      rw [hf] at h1
      simp at h1
    | httpError s =>
      exfalso
      unfold get_fiat_rate fiatFetch at h1
      rw [hg] at h1
      dsimp only at h1
      rw [hf] at h1
      simp at h1
    | ok data =>
      cases hp : fiatProcess data (pyUpper target) with
      | error e =>
        exfalso
        unfold get_fiat_rate fiatFetch at h1
        rw [hg] at h1
        dsimp only at h1
        rw [hf] at h1
        dsimp only at h1
        rw [hp] at h1
        simp at h1
      | ok rate =>
        have heq := get_fiat_rate_fetch_ok env c t0 base target data rate hg hf hp
        have hv : v = .num rate := by
          rw [heq] at h1
          exact (Except.ok.injEq _ _).mp h1.symm
        refine ⟨?_, ?_, ?_⟩
        · rw [heq]
          simp [countReqs, isReq, List.filter]
        · rw [heq]
          have hhit := get_fiat_rate_hit env
            (cache_set (cache_get c t0 (fiatKey base target)).2 t0 (fiatKey base target)
              (.num rate) CACHE_TTL_SECONDS) t base2 target2
            ⟨.num rate, t0 + CACHE_TTL_SECONDS⟩
            (by rw [hkey]; simp [cache_set])
            (by exact not_lt.mpr (le_of_lt ht))
          rw [hhit, hv]
        · rw [heq]
          have hhit := get_fiat_rate_hit env
            (cache_set (cache_get c t0 (fiatKey base target)).2 t0 (fiatKey base target)
              (.num rate) CACHE_TTL_SECONDS) t base2 target2
            ⟨.num rate, t0 + CACHE_TTL_SECONDS⟩
            (by rw [hkey]; simp [cache_set])
            (by exact not_lt.mpr (le_of_lt ht))
          rw [hhit]
          simp [countReqs, List.filter]

/-- [C7, witness] The amended idempotence instantiated concretely: first call
`("usd","eur")` at `t0 = 0` on an empty cache fetches (one request, rate 9/10);
the call `("USD","EuR")` at `t = 100 < 900` returns the same rate with zero
requests. -/
theorem fiat_cached_pair_idempotent_witness :
    countReqs (get_fiat_rate envFiatA emptyCache 0 "usd" "eur").2.2 = 1
    ∧ (get_fiat_rate envFiatA
        (get_fiat_rate envFiatA emptyCache 0 "usd" "eur").2.1 100 "USD" "EuR").1
        = .ok (CacheVal.num ((9 : ℚ)/10))
    ∧ countReqs (get_fiat_rate envFiatA
        (get_fiat_rate envFiatA emptyCache 0 "usd" "eur").2.1 100 "USD" "EuR").2.2 = 0 :=
  fiat_cached_pair_idempotent envFiatA emptyCache 0 100 "usd" "eur" "USD" "EuR"
    (CacheVal.num ((9 : ℚ)/10))
    (by norm_num [get_fiat_rate, fiatFetch, fiatProcess, fiatKey, cache_get, emptyCache,
      envFiatA, List.lookup])
    (by norm_num [get_fiat_rate, fiatFetch, fiatProcess, fiatKey, cache_get, emptyCache,
      envFiatA, List.lookup]
        decide)
    (by simp)
    (by simp)
    (by norm_num [CACHE_TTL_SECONDS])

/- ------------------------------------------------------------------ -/
/- Crypto price resolver (`get_crypto_price`).                        -/
/- ------------------------------------------------------------------ -/

/-- The fixed catalog cache key `"coingecko:coins:list"`. -/
def listKey : String := "coingecko:coins:list"

/-- The price cache key `f"crypto:{symbol_upper}:{vs_currency_lower}"`. -/
def cryptoKey (symbol vs_currency : String) : String :=
  "crypto:" ++ pyUpper symbol ++ ":" ++ pyLower vs_currency

/-- 504 raised on `httpx.RequestError` while contacting CoinGecko. -/
def cgNetExc (msg : String) : HTTPException :=
  ⟨504, "Timeout or network error connecting to CoinGecko: " ++ msg⟩

/-- The `except httpx.HTTPStatusError` handler of `get_crypto_price`: a 429
from CoinGecko is surfaced as the distinct rate-limit signal, any other status
as a generic 502. -/
def cgHttpExc (status : ℕ) : HTTPException :=
  if status = 429 then
    ⟨429, "Rate limit exceeded on CoinGecko. Increase cache TTL or upgrade CoinGecko plan."⟩
  else
    ⟨502, "Failed to fetch crypto price (HTTP Error " ++ toString status ++ ")"⟩

/-- The catch-all `except Exception` of `get_crypto_price`, applied to
`HTTPException`s raised inside its `try` block (`HTTPException` subclasses
`Exception`). -/
def wrapCrypto500 (e : HTTPException) : HTTPException :=
  ⟨500, "Internal server error while processing crypto rates: " ++ strExc e⟩

/-- Line 160: `HTTPException(502, "CoinGecko returned no price for requested vs_currency")`. -/
def noPriceExc : HTTPException :=
  ⟨502, "CoinGecko returned no price for requested vs_currency"⟩

/-- Line 150: `HTTPException(404, f"Crypto symbol '{symbol_upper}' not found on CoinGecko")`. -/
def notFoundExc (symbol_upper : String) : HTTPException :=
  ⟨404, "Crypto symbol \x27" ++ symbol_upper ++ "\x27 not found on CoinGecko"⟩

/-- Degenerate case: the catalog cache slot holds a number; iterating it in the
generator expression raises `TypeError`, caught by the catch-all as a 500. -/
def iterExc : HTTPException :=
  ⟨500, "Internal server error while processing crypto rates: \x27float\x27 object is not iterable"⟩

/-- `next((c["id"] for c in coins_list if c["symbol"].upper() == symbol_upper), None)`. -/
def findSymbol (coins_list : List CatalogEntry) (symbol_upper : String) : Option String :=
  (coins_list.find? (fun e => pyUpper e.symbol == symbol_upper)).map (fun e => e.id)

/-- Attempt 1 (lines 126–134 plus the shared tail): price request for the
statically mapped id.  If the response has a price, cache and return it; if
not, control reaches line 159 (`price is None`) because the fallback guard
`if not coin_id:` is false for a mapped symbol — the raised 502 is then
wrapped to a 500 by the catch-all. -/
def fastPath (env : Env) (c : Cache) (t : ℚ) (key coin_id vs : String) : RunResult :=
  match env.price coin_id vs with
  | .netError msg => (.error (cgNetExc msg), c, [Ev.req (Req.price coin_id vs)])
  | .httpError s => (.error (cgHttpExc s), c, [Ev.req (Req.price coin_id vs)])
  | .ok data =>
    match priceOf data coin_id vs with
    | some price =>
      (.ok (.num price),
       cache_set c t key (.num price) CACHE_TTL_SECONDS,
       [Ev.req (Req.price coin_id vs), Ev.wr key CACHE_TTL_SECONDS])
    | none => (.error (wrapCrypto500 noPriceExc), c, [Ev.req (Req.price coin_id vs)])

/-- Lines 147–160: search the catalog for the symbol (`if not coin_id` also
treats an empty-string id as missing), then fetch the price for the found id.
The in-try 404 and 502 raises are wrapped to 500 by the catch-all; `evs` are
the events already produced by the catalog acquisition. -/
def fallbackSearch (env : Env) (c : Cache) (t : ℚ) (key symbol_upper vs : String)
    (coins_list : List CatalogEntry) (evs : List Ev) : RunResult :=
  match findSymbol coins_list symbol_upper with
  | none => (.error (wrapCrypto500 (notFoundExc symbol_upper)), c, evs)
  | some coin_id =>
    if coin_id = "" then
      (.error (wrapCrypto500 (notFoundExc symbol_upper)), c, evs)
    else
      match env.price coin_id vs with
      | .netError msg => (.error (cgNetExc msg), c, evs ++ [Ev.req (Req.price coin_id vs)])
      | .httpError s => (.error (cgHttpExc s), c, evs ++ [Ev.req (Req.price coin_id vs)])
      | .ok data =>
        match priceOf data coin_id vs with
        | some price =>
          (.ok (.num price),
           cache_set c t key (.num price) CACHE_TTL_SECONDS,
           evs ++ [Ev.req (Req.price coin_id vs), Ev.wr key CACHE_TTL_SECONDS])
        | none =>
          (.error (wrapCrypto500 noPriceExc), c, evs ++ [Ev.req (Req.price coin_id vs)])

/-- Attempt 2 (lines 137–146): acquire the catalog — from the cache under the
fixed key when present, otherwise by one `coins/list` request, caching the
result for 24 hours — then search it. -/
def fallbackPath (env : Env) (c : Cache) (t : ℚ) (key symbol_upper vs : String) : RunResult :=
  match (cache_get c t listKey).1 with
  | some (.list coins_list) =>
    fallbackSearch env (cache_get c t listKey).2 t key symbol_upper vs coins_list []
  | some (.num _) => (.error iterExc, (cache_get c t listKey).2, [])
  | none =>
    match env.catalog with
    | .netError msg => (.error (cgNetExc msg), (cache_get c t listKey).2, [Ev.req Req.catalog])
    | .httpError s => (.error (cgHttpExc s), (cache_get c t listKey).2, [Ev.req Req.catalog])
    | .ok lst =>
      fallbackSearch env
        (cache_set (cache_get c t listKey).2 t listKey (.list lst) (3600 * 24)) t key
        symbol_upper vs lst [Ev.req Req.catalog, Ev.wr listKey (3600 * 24)]

/-- `get_crypto_price(symbol, vs_currency)`: normalize, consult the cache, then
the static mapping decides between the fast path and the catalog fallback. -/
def get_crypto_price (env : Env) (c : Cache) (t : ℚ) (symbol vs_currency : String) : RunResult :=
  match (cache_get c t (cryptoKey symbol vs_currency)).1 with
  | some v => (.ok v, (cache_get c t (cryptoKey symbol vs_currency)).2, [])
  | none =>
    match CRYPTO_SYMBOL_MAP.lookup (pyUpper symbol) with
    | some coin_id =>
      fastPath env (cache_get c t (cryptoKey symbol vs_currency)).2 t
        (cryptoKey symbol vs_currency) coin_id (pyLower vs_currency)
    | none =>
      fallbackPath env (cache_get c t (cryptoKey symbol vs_currency)).2 t
        (cryptoKey symbol vs_currency) (pyUpper symbol) (pyLower vs_currency)

/-- A price key (prefix `"crypto:"`) never collides with the fixed catalog key. -/
theorem cryptoKey_ne_listKey (s v : String) : cryptoKey s v ≠ listKey := by
  intro h
  have hd := congrArg String.data h
  rw [cryptoKey, listKey] at hd
  rw [String.data_append, String.data_append, String.data_append] at hd
  have h7 : "crypto:".data = ['c', 'r', 'y', 'p', 't', 'o', ':'] := rfl
  have h20 : "coingecko:coins:list".data
      = ['c', 'o', 'i', 'n', 'g', 'e', 'c', 'k', 'o', ':',
         'c', 'o', 'i', 'n', 's', ':', 'l', 'i', 's', 't'] := rfl
  rw [h7, h20] at hd
  simp at hd

/-- Equation lemma: a fresh cache hit on the price key returns the stored
value, untouched cache, empty trace. -/
theorem get_crypto_price_hit (env : Env) (c : Cache) (t : ℚ) (symbol vs : String)
    (entry : CacheEntry) (hc : c (cryptoKey symbol vs) = some entry)
    (ht : ¬ t > entry.expires_at) :
    get_crypto_price env c t symbol vs = (.ok entry.value, c, []) := by
  unfold get_crypto_price cache_get
  rw [hc]
  simp [ht]

/-- Equation lemma: price-cache miss with a statically mapped symbol enters the
fast path. -/
theorem get_crypto_price_miss_mapped (env : Env) (c : Cache) (t : ℚ)
    (symbol vs coin_id : String)
    (h0 : (cache_get c t (cryptoKey symbol vs)).1 = none)
    (h1 : CRYPTO_SYMBOL_MAP.lookup (pyUpper symbol) = some coin_id) :
    get_crypto_price env c t symbol vs
      = fastPath env (cache_get c t (cryptoKey symbol vs)).2 t
          (cryptoKey symbol vs) coin_id (pyLower vs) := by
  unfold get_crypto_price
  rw [h0]
  dsimp only
  rw [h1]

/-- Equation lemma: price-cache miss with an unmapped symbol enters the
catalog fallback. -/
theorem get_crypto_price_miss_unmapped (env : Env) (c : Cache) (t : ℚ) (symbol vs : String)
    (h0 : (cache_get c t (cryptoKey symbol vs)).1 = none)
    (h1 : CRYPTO_SYMBOL_MAP.lookup (pyUpper symbol) = none) :
    get_crypto_price env c t symbol vs
      = fallbackPath env (cache_get c t (cryptoKey symbol vs)).2 t
          (cryptoKey symbol vs) (pyUpper symbol) (pyLower vs) := by
  unfold get_crypto_price
  rw [h0]
  dsimp only
  rw [h1]

/- Concrete upstream worlds for the crypto scenarios. -/

/-- CoinGecko answers every price request with `{"bitcoin": {}}` (no price for
any vs_currency); the catalog would match "BTC" if it were consulted. -/
def envCryptoNoPrice : Env :=
  { fiat := fun _ => .netError "offline",
    price := fun _ _ => .ok [("bitcoin", [])],
    catalog := .ok [⟨"bitcoin", "btc"⟩] }

/-- CoinGecko has a catalog with only a "bar" coin and returns empty price
objects. -/
def envCryptoBare : Env :=
  { fiat := fun _ => .netError "offline",
    price := fun _ _ => .ok [],
    catalog := .ok [⟨"bar-coin", "bar"⟩] }

/-- Every CoinGecko price request is rejected with HTTP 429. -/
def envCrypto429 : Env :=
  { fiat := fun _ => .netError "offline",
    price := fun _ _ => .httpError 429,
    catalog := .ok [⟨"bar-coin", "bar"⟩] }

/-- A catalog with two entries sharing the ticker "foo"; the provider prices
`foo-coin` at 42 usd. -/
def envCryptoCatalog : Env :=
  { fiat := fun _ => .netError "offline",
    price := fun i _ => if i = "foo-coin" then .ok [("foo-coin", [("usd", (42 : ℚ))])] else .ok [],
    catalog := .ok [⟨"bar-coin", "bar"⟩, ⟨"foo-coin", "foo"⟩, ⟨"foo-coin-2", "foo"⟩] }

/- ------------------------------------------------------------------ -/
/- C2: mapped symbol whose fast path yields no price.                 -/
/- ------------------------------------------------------------------ -/

/-- [C2, counterexample] "BTC" is in the static mapping and the fast-path
response carries no price for "usd".  The claim says the resolver then enters
the fallback path (catalog fetch and symbol search); in the code the fallback
is guarded by `if not coin_id:` (line 137), which is false for a mapped
symbol, so control reaches `if price is None:` (line 159) and fails — here
with zero catalog requests (and one price request in total), even though the
catalog of this environment would have matched.  The 502 raised inside the
`try` block is additionally wrapped to a 500 by the catch-all handler. -/
theorem crypto_fastpath_noprice_cex :
    (get_crypto_price envCryptoNoPrice emptyCache 0 "BTC" "usd").1
      = .error ⟨500,
          "Internal server error while processing crypto rates: 502: CoinGecko returned no price for requested vs_currency"⟩
    ∧ countCatalogReqs (get_crypto_price envCryptoNoPrice emptyCache 0 "BTC" "usd").2.2 = 0
    ∧ countReqs (get_crypto_price envCryptoNoPrice emptyCache 0 "BTC" "usd").2.2 = 1 := by
  refine ⟨?_, ?_, ?_⟩ <;> decide

/-- [C2, amended] When the uppercased symbol is statically mapped but the
fast-path price response contains no price for the requested currency, the
resolver does *not* enter the fallback path: it fails immediately (no catalog
request) with the no-price upstream error, which the catch-all handler
surfaces as a 500.  The fallback is entered only when the static mapping
missed. -/
theorem crypto_mapped_noprice_fails_immediately
    (env : Env) (c : Cache) (t : ℚ) (symbol vs coin_id : String) (data : PriceData)
    (h0 : (cache_get c t (cryptoKey symbol vs)).1 = none)
    (h1 : CRYPTO_SYMBOL_MAP.lookup (pyUpper symbol) = some coin_id)
    (h2 : env.price coin_id (pyLower vs) = .ok data)
    (h3 : priceOf data coin_id (pyLower vs) = none) :
    (get_crypto_price env c t symbol vs).1 = .error (wrapCrypto500 noPriceExc)
    ∧ countCatalogReqs (get_crypto_price env c t symbol vs).2.2 = 0 := by
  rw [get_crypto_price_miss_mapped env c t symbol vs coin_id h0 h1]
  unfold fastPath
  rw [h2]
  dsimp only
  rw [h3]
  exact ⟨rfl, by simp [countCatalogReqs, isCatalogReq, List.filter]⟩

/-- [C2, witness] The amended statement instantiated at the counterexample
world: mapped "BTC", no usd price, immediate wrapped failure, no catalog
request. -/
theorem crypto_mapped_noprice_fails_immediately_witness :
    (get_crypto_price envCryptoNoPrice emptyCache 0 "BTC" "usd").1
      = .error (wrapCrypto500 noPriceExc)
    ∧ countCatalogReqs (get_crypto_price envCryptoNoPrice emptyCache 0 "BTC" "usd").2.2 = 0 :=
  crypto_mapped_noprice_fails_immediately envCryptoNoPrice emptyCache 0 "BTC" "usd"
    "bitcoin" [("bitcoin", [])] (by decide) (by decide) (by decide) (by decide)

/- ------------------------------------------------------------------ -/
/- C3: unknown symbol in both the mapping and the catalog.            -/
/- ------------------------------------------------------------------ -/

/-- [C3, code evaluated at the failing input] "FOO" is absent from the static
mapping and no catalog entry matches.  Line 150 raises
`HTTPException(404, "Crypto symbol 'FOO' not found on CoinGecko")` — but it is
raised inside the `try` block, and the trailing `except Exception` handler
(line 169) catches the `HTTPException` (a subclass of `Exception`) and
re-raises it as a 500 internal error.  The caller never sees the 4xx
client-facing signal the code and spec intend. -/
theorem crypto_unknown_symbol_becomes_500 :
    (get_crypto_price envCryptoBare emptyCache 0 "FOO" "usd").1
      = .error ⟨500,
          "Internal server error while processing crypto rates: 404: Crypto symbol \x27FOO\x27 not found on CoinGecko"⟩ := by
  decide

/- ------------------------------------------------------------------ -/
/- C5: 429 propagation.                                               -/
/- ------------------------------------------------------------------ -/

/-- [C5] If every upstream price request is answered with HTTP 429 and the
resolution actually issues a price request (on either the fast path or the
fallback path), the caller receives the distinct
`HTTPException(429, "Rate limit exceeded on CoinGecko. ...")` — not a generic
502 upstream failure and not a 500 internal error: `raise_for_status` raises
`httpx.HTTPStatusError`, whose handler checks `status_code == 429` and whose
re-raise happens *outside* the `try` block, so the catch-all cannot downgrade
it. -/
theorem crypto_rate_limit_propagation
    (env : Env) (c : Cache) (t : ℚ) (symbol vs : String)
    (h429 : ∀ id v2, env.price id v2 = .httpError 429)
    (hreq : hasPriceReq (get_crypto_price env c t symbol vs).2.2 = true) :
    (get_crypto_price env c t symbol vs).1
      = .error ⟨429, "Rate limit exceeded on CoinGecko. Increase cache TTL or upgrade CoinGecko plan."⟩ := by
  cases hg : (cache_get c t (cryptoKey symbol vs)).1 with
  | some v0 =>
    exfalso
    unfold get_crypto_price at hreq
    rw [hg] at hreq
    simp [hasPriceReq] at hreq
  | none =>
    cases hm : CRYPTO_SYMBOL_MAP.lookup (pyUpper symbol) with
    | some coin_id =>
      rw [get_crypto_price_miss_mapped env c t symbol vs coin_id hg hm]
      unfold fastPath
      rw [h429 coin_id (pyLower vs)]
      simp [cgHttpExc]
    | none =>
      rw [get_crypto_price_miss_unmapped env c t symbol vs hg hm] at hreq ⊢
      unfold fallbackPath at hreq ⊢
      cases hl : (cache_get (cache_get c t (cryptoKey symbol vs)).2 t listKey).1 with
      | some v1 =>
        cases v1 with
        | num q =>
          exfalso
          rw [hl] at hreq
          simp [hasPriceReq] at hreq
        | list L =>
          rw [hl] at hreq
          dsimp only at hreq ⊢
          unfold fallbackSearch at hreq ⊢
          cases hf : findSymbol L (pyUpper symbol) with
          | none =>
            exfalso
            rw [hf] at hreq
            simp [hasPriceReq] at hreq
          | some coin_id =>
            rw [hf] at hreq
            dsimp only at hreq ⊢
            by_cases hid : coin_id = ""
            · exfalso
              rw [if_pos hid] at hreq
              simp [hasPriceReq] at hreq
            · rw [if_neg hid] at hreq ⊢
              rw [h429 coin_id (pyLower vs)]
              simp [cgHttpExc]
      | none =>
        rw [hl] at hreq
        dsimp only at hreq ⊢
        cases hcat : env.catalog with
        | netError msg =>
          exfalso
          rw [hcat] at hreq
          simp [hasPriceReq, isPriceReq] at hreq
        | httpError s =>
          exfalso
          rw [hcat] at hreq
          simp [hasPriceReq, isPriceReq] at hreq
        | ok lst =>
          rw [hcat] at hreq
          dsimp only at hreq ⊢
          unfold fallbackSearch at hreq ⊢
          cases hf : findSymbol lst (pyUpper symbol) with
          | none =>
            exfalso
            rw [hf] at hreq
            simp [hasPriceReq, isPriceReq] at hreq
          | some coin_id =>
            rw [hf] at hreq
            dsimp only at hreq ⊢
            by_cases hid : coin_id = ""
            · exfalso
              rw [if_pos hid] at hreq
              simp [hasPriceReq, isPriceReq] at hreq
            · rw [if_neg hid] at hreq ⊢
              rw [h429 coin_id (pyLower vs)]
              simp [cgHttpExc]

/-- [C5, witness] Rate-limit propagation on the fast path: "BTC", all price
requests 429, empty cache. -/
theorem crypto_rate_limit_propagation_witness :
    (get_crypto_price envCrypto429 emptyCache 0 "BTC" "usd").1
      = .error ⟨429, "Rate limit exceeded on CoinGecko. Increase cache TTL or upgrade CoinGecko plan."⟩ :=
  crypto_rate_limit_propagation envCrypto429 emptyCache 0 "BTC" "usd"
    (fun _ _ => rfl) (by decide)

/-- Reading a present, unexpired entry yields its value. -/
theorem cache_get_hit_fst (c : Cache) (t : ℚ) (key : String) (en : CacheEntry)
    (hc : c key = some en) (ht : ¬ t > en.expires_at) :
    (cache_get c t key).1 = some en.value := by
  unfold cache_get
  rw [hc]
  simp [ht]

/-- The catalog-search stage issues price requests only: it adds no catalog
fetch beyond the events it was handed. -/
theorem countCatalogReqs_fallbackSearch (env : Env) (c : Cache) (t : ℚ)
    (key su vs : String) (L : List CatalogEntry) (evs : List Ev) :
    countCatalogReqs (fallbackSearch env c t key su vs L evs).2.2
      = countCatalogReqs evs := by
  unfold fallbackSearch
  cases hf : findSymbol L su with
  | none => rfl
  | some coin_id =>
    dsimp only
    by_cases hid : coin_id = ""
    · rw [if_pos hid]
    · rw [if_neg hid]
      cases hp : env.price coin_id vs with
      | netError msg => simp [countCatalogReqs, List.filter_append, isCatalogReq, List.filter]
      | httpError s => simp [countCatalogReqs, List.filter_append, isCatalogReq, List.filter]
      | ok data =>
        cases hpo : priceOf data coin_id vs with
        | none => simp [hpo, countCatalogReqs, List.filter_append, isCatalogReq, List.filter]
        | some p => simp [hpo, countCatalogReqs, List.filter_append, isCatalogReq, List.filter]

/- ------------------------------------------------------------------ -/
/- C6: catalog fallback resolution; catalog fetched at most once.     -/
/- ------------------------------------------------------------------ -/

/-- [C6] Part 1: for a symbol outside the static mapping whose (case-
insensitive) ticker matches some catalog entry, a resolution with cold caches
fetches the catalog exactly once, resolves via the *first* matching entry's
id, returns the price the provider reports for that id, and leaves the whole
catalog cached under the fixed key with the 24-hour TTL.  Part 2: any call
that finds an unexpired catalog entry under the fixed key issues zero catalog
fetches — so across repeated calls within the catalog's TTL the network fetch
happens at most once. -/
theorem crypto_fallback_resolution_catalog_once :
    (∀ (env : Env) (c : Cache) (t : ℚ) (symbol vs : String) (L : List CatalogEntry)
        (e : CatalogEntry) (data : PriceData) (p : ℚ),
      (cache_get c t (cryptoKey symbol vs)).1 = none →
      CRYPTO_SYMBOL_MAP.lookup (pyUpper symbol) = none →
      (cache_get (cache_get c t (cryptoKey symbol vs)).2 t listKey).1 = none →
      env.catalog = .ok L →
      L.find? (fun e2 => pyUpper e2.symbol == pyUpper symbol) = some e →
      e.id ≠ "" →
      env.price e.id (pyLower vs) = .ok data →
      priceOf data e.id (pyLower vs) = some p →
      (get_crypto_price env c t symbol vs).1 = .ok (.num p)
      ∧ countCatalogReqs (get_crypto_price env c t symbol vs).2.2 = 1
      ∧ (get_crypto_price env c t symbol vs).2.1 listKey
          = some ⟨.list L, t + 3600 * 24⟩)
    ∧ (∀ (env : Env) (c : Cache) (t : ℚ) (symbol vs : String) (en : CacheEntry),
      c listKey = some en → ¬ t > en.expires_at →
      countCatalogReqs (get_crypto_price env c t symbol vs).2.2 = 0) := by
  constructor
  · intro env c t symbol vs L e data p h0 h1 h2 hcat hfind hid hpr hpo
    have hfs : findSymbol L (pyUpper symbol) = some e.id := by
      unfold findSymbol
      rw [hfind]
      rfl
    rw [get_crypto_price_miss_unmapped env c t symbol vs h0 h1]
    unfold fallbackPath
    rw [h2]
    dsimp only
    rw [hcat]
    dsimp only
    unfold fallbackSearch
    rw [hfs]
    dsimp only
    rw [if_neg hid, hpr]
    dsimp only
    rw [hpo]
    dsimp only
    refine ⟨rfl, ?_, ?_⟩
    · simp [countCatalogReqs, List.filter_append, isCatalogReq, List.filter]
    · rw [cache_set_other _ _ _ _ _ _ (Ne.symm (cryptoKey_ne_listKey symbol vs))]
      rw [cache_set_same]
  · intro env c t symbol vs en hc ht
    cases hg : (cache_get c t (cryptoKey symbol vs)).1 with
    | some v0 =>
      unfold get_crypto_price
      rw [hg]
      simp [countCatalogReqs]
    | none =>
      cases hm : CRYPTO_SYMBOL_MAP.lookup (pyUpper symbol) with
      | some coin_id =>
        rw [get_crypto_price_miss_mapped env c t symbol vs coin_id hg hm]
        unfold fastPath
        cases hp : env.price coin_id (pyLower vs) with
        | netError msg => simp [countCatalogReqs, isCatalogReq, List.filter]
        | httpError s => simp [countCatalogReqs, isCatalogReq, List.filter]
        | ok data =>
          cases hpo : priceOf data coin_id (pyLower vs) with
          | none => simp [hpo, countCatalogReqs, isCatalogReq, List.filter]
          | some p => simp [hpo, countCatalogReqs, isCatalogReq, List.filter]
      | none =>
        rw [get_crypto_price_miss_unmapped env c t symbol vs hg hm]
        unfold fallbackPath
        have hc1 : (cache_get c t (cryptoKey symbol vs)).2 listKey = some en := by
          rw [cache_get_preserves_other c t (cryptoKey symbol vs) listKey
            (Ne.symm (cryptoKey_ne_listKey symbol vs))]
          exact hc
        have hl : (cache_get (cache_get c t (cryptoKey symbol vs)).2 t listKey).1
            = some en.value :=
          cache_get_hit_fst _ t listKey en hc1 ht
        rw [hl]
        cases hv : en.value with
        | num q => simp [countCatalogReqs]
        | list L =>
          dsimp only
          rw [countCatalogReqs_fallbackSearch]
          simp [countCatalogReqs]

/-- [C6, witness] "FOO" resolves through the catalog to `foo-coin` (the first
of two entries with ticker "foo") at price 42 with one catalog fetch; a
subsequent call at `t = 100` (within the 24-hour TTL) for another unmapped
symbol reads the catalog from the cache and fetches it zero times. -/
theorem crypto_fallback_resolution_catalog_once_witness :
    (get_crypto_price envCryptoCatalog emptyCache 0 "FOO" "usd").1
      = .ok (.num 42)
    ∧ countCatalogReqs (get_crypto_price envCryptoCatalog emptyCache 0 "FOO" "usd").2.2 = 1
    ∧ countCatalogReqs (get_crypto_price envCryptoCatalog
        (get_crypto_price envCryptoCatalog emptyCache 0 "FOO" "usd").2.1
        100 "BAR" "usd").2.2 = 0 := by
  have h1 := crypto_fallback_resolution_catalog_once.1 envCryptoCatalog emptyCache 0 "FOO" "usd"
    [⟨"bar-coin", "bar"⟩, ⟨"foo-coin", "foo"⟩, ⟨"foo-coin-2", "foo"⟩]
    ⟨"foo-coin", "foo"⟩ [("foo-coin", [("usd", (42 : ℚ))])] 42
    (by decide) (by decide) (by decide) (by decide) (by decide) (by decide) (by decide) (by decide)
  refine ⟨h1.1, h1.2.1, ?_⟩
  exact crypto_fallback_resolution_catalog_once.2 envCryptoCatalog _ 100 "BAR" "usd"
    ⟨.list [⟨"bar-coin", "bar"⟩, ⟨"foo-coin", "foo"⟩, ⟨"foo-coin-2", "foo"⟩], 0 + 3600 * 24⟩
    h1.2.2 (by norm_num)

/-- Whether a resolver outcome is a raised `HTTPException`. -/
def isError : Except HTTPException CacheVal → Bool
  | .error _ => true
  | .ok _ => false

/-- When the catalog-search stage fails, it performs no cache write of its
own: every write event in its trace was already among the events handed to
it by the catalog-acquisition stage. -/
theorem fallbackSearch_error_writes (env : Env) (c : Cache) (t : ℚ)
    (key su vs : String) (L : List CatalogEntry) (evs : List Ev) (k : String) (ttl : ℚ)
    (herr : isError (fallbackSearch env c t key su vs L evs).1 = true)
    (hmem : Ev.wr k ttl ∈ (fallbackSearch env c t key su vs L evs).2.2) :
    Ev.wr k ttl ∈ evs := by
  unfold fallbackSearch at herr hmem
  cases hf : findSymbol L su with
  | none =>
    rw [hf] at hmem
    exact hmem
  | some coin_id =>
    rw [hf] at herr hmem
    dsimp only at herr hmem
    by_cases hid : coin_id = ""
    · rw [if_pos hid] at hmem
      exact hmem
    · rw [if_neg hid] at herr hmem
      cases hp : env.price coin_id vs with
      | netError msg =>
        rw [hp] at hmem
        simp at hmem
        exact hmem
      | httpError s =>
        rw [hp] at hmem
        simp at hmem
        exact hmem
      | ok data =>
        rw [hp] at herr hmem
        dsimp only at herr hmem
        cases hpo : priceOf data coin_id vs with
        | some p =>
          exfalso
          rw [hpo] at herr
          simp [isError] at herr
        | none =>
          rw [hpo] at hmem
          simp at hmem
          exact hmem

/- ------------------------------------------------------------------ -/
/- C9: cache writes of failing crypto resolutions.                    -/
/- ------------------------------------------------------------------ -/

/-- [C9] Part 1: a `get_crypto_price` call that ends in an error performs cache
writes only under the fixed catalog key (with the 24-hour TTL) — in particular
it never writes the price key `crypto:{SYMBOL}:{vs}`.  Part 2 (concrete): a
failing resolution can indeed leave the catalog cached: with catalog
`[{id:"bar-coin", symbol:"bar"}]` and unknown symbol "FOO", the call errors,
its trace contains the catalog write, and the 24-hour catalog entry stays in
the final cache — failing resolutions are not atomic with respect to the
shared cache. -/
theorem crypto_error_never_writes_price_key :
    (∀ (env : Env) (c : Cache) (t : ℚ) (symbol vs k : String) (ttl : ℚ),
      isError (get_crypto_price env c t symbol vs).1 = true →
      Ev.wr k ttl ∈ (get_crypto_price env c t symbol vs).2.2 →
      k = listKey ∧ ttl = 3600 * 24)
    ∧ (isError (get_crypto_price envCryptoBare emptyCache 0 "FOO" "usd").1 = true
      ∧ Ev.wr listKey (3600 * 24) ∈ (get_crypto_price envCryptoBare emptyCache 0 "FOO" "usd").2.2
      ∧ (get_crypto_price envCryptoBare emptyCache 0 "FOO" "usd").2.1 listKey
          = some ⟨.list [⟨"bar-coin", "bar"⟩], 0 + 3600 * 24⟩) := by
  constructor
  · intro env c t symbol vs k ttl herr hmem
    cases hg : (cache_get c t (cryptoKey symbol vs)).1 with
    | some v0 =>
      exfalso
      unfold get_crypto_price at herr
      rw [hg] at herr
      simp [isError] at herr
    | none =>
      cases hm : CRYPTO_SYMBOL_MAP.lookup (pyUpper symbol) with
      | some coin_id =>
        exfalso
        rw [get_crypto_price_miss_mapped env c t symbol vs coin_id hg hm] at herr hmem
        unfold fastPath at herr hmem
        cases hp : env.price coin_id (pyLower vs) with
        | netError msg =>
          rw [hp] at hmem
          simp at hmem
        | httpError s =>
          rw [hp] at hmem
          simp at hmem
        | ok data =>
          rw [hp] at herr hmem
          dsimp only at herr hmem
          cases hpo : priceOf data coin_id (pyLower vs) with
          | some p =>
            rw [hpo] at herr
            simp [isError] at herr
          | none =>
            rw [hpo] at hmem
            simp at hmem
      | none =>
        rw [get_crypto_price_miss_unmapped env c t symbol vs hg hm] at herr hmem
        unfold fallbackPath at herr hmem
        cases hl : (cache_get (cache_get c t (cryptoKey symbol vs)).2 t listKey).1 with
        | some v1 =>
          cases v1 with
          | num q =>
            exfalso
            rw [hl] at hmem
            simp at hmem
          | list L =>
            rw [hl] at herr hmem
            dsimp only at herr hmem
            exfalso
            have := fallbackSearch_error_writes env _ t (cryptoKey symbol vs)
              (pyUpper symbol) (pyLower vs) L [] k ttl herr hmem
            simp at this
        | none =>
          rw [hl] at herr hmem
          dsimp only at herr hmem
          cases hcat : env.catalog with
          | netError msg =>
            exfalso
            rw [hcat] at hmem
            simp at hmem
          | httpError s =>
            exfalso
            rw [hcat] at hmem
            simp at hmem
          | ok lst =>
            rw [hcat] at herr hmem
            dsimp only at herr hmem
            have hin := fallbackSearch_error_writes env _ t (cryptoKey symbol vs)
              (pyUpper symbol) (pyLower vs) lst [Ev.req Req.catalog, Ev.wr listKey (3600 * 24)]
              k ttl herr hmem
            simp at hin
            exact ⟨hin.1, hin.2⟩
  · have e1 := get_crypto_price_miss_unmapped envCryptoBare emptyCache 0 "FOO" "usd"
      (by decide) (by decide)
    refine ⟨?_, ?_, ?_⟩
    · decide
    · rw [e1]
      have hfs : findSymbol [CatalogEntry.mk "bar-coin" "bar"] "FOO" = none := by
        decide
      norm_num [fallbackPath, fallbackSearch, cache_get, cache_set, emptyCache,
        envCryptoBare, listKey, hfs]
    · rw [e1]
      have hfs : findSymbol [CatalogEntry.mk "bar-coin" "bar"] "FOO" = none := by
        decide
      norm_num [fallbackPath, fallbackSearch, cache_get, cache_set, emptyCache,
        envCryptoBare, listKey, hfs]

/-- [C9, witness] The universally quantified part applied to the concrete
failing "FOO" resolution, whose trace does contain a write: the written key is
the catalog key with the 24-hour TTL. -/
theorem crypto_error_never_writes_price_key_witness :
    listKey = listKey ∧ (3600 * 24 : ℚ) = 3600 * 24 := by
  have e1 := get_crypto_price_miss_unmapped envCryptoBare emptyCache 0 "FOO" "usd"
    (by decide) (by decide)
  refine crypto_error_never_writes_price_key.1 envCryptoBare emptyCache 0 "FOO" "usd"
    listKey (3600 * 24) (by decide) ?_
  rw [e1]
  have hfs : findSymbol [CatalogEntry.mk "bar-coin" "bar"] "FOO" = none := by decide
  norm_num [fallbackPath, fallbackSearch, cache_get, cache_set, emptyCache,
    envCryptoBare, listKey, hfs]

/-- Every write performed by the catalog-search stage beyond the events handed
to it targets the price key with the default TTL. -/
theorem fallbackSearch_writes (env : Env) (c : Cache) (t : ℚ)
    (key su vs : String) (L : List CatalogEntry) (evs : List Ev) (k : String) (ttl : ℚ)
    (hmem : Ev.wr k ttl ∈ (fallbackSearch env c t key su vs L evs).2.2) :
    Ev.wr k ttl ∈ evs ∨ (k = key ∧ ttl = CACHE_TTL_SECONDS) := by
  unfold fallbackSearch at hmem
  cases hf : findSymbol L su with
  | none =>
    rw [hf] at hmem
    exact .inl hmem
  | some coin_id =>
    rw [hf] at hmem
    dsimp only at hmem
    by_cases hid : coin_id = ""
    · rw [if_pos hid] at hmem
      exact .inl hmem
    · rw [if_neg hid] at hmem
      cases hp : env.price coin_id vs with
      | netError msg =>
        rw [hp] at hmem
        simp at hmem
        exact .inl hmem
      | httpError s =>
        rw [hp] at hmem
        simp at hmem
        exact .inl hmem
      | ok data =>
        rw [hp] at hmem
        dsimp only at hmem
        cases hpo : priceOf data coin_id vs with
        | none =>
          rw [hpo] at hmem
          simp at hmem
          exact .inl hmem
        | some p =>
          rw [hpo] at hmem
          simp at hmem
          rcases hmem with h | h
          · exact .inl h
          · exact .inr h

/- ------------------------------------------------------------------ -/
/- C10: the TTLs attached to each kind of cache entry.                -/
/- ------------------------------------------------------------------ -/

/-- [C10] Every cache write the fiat resolver performs carries the default TTL
`CACHE_TTL_SECONDS`; every cache write the crypto resolver performs is either
the catalog entry under the fixed key with TTL `3600 * 24` or the price entry
under the pair key with the default TTL; and those TTLs are exactly 900
seconds and 86400 seconds. -/
theorem cache_write_ttls :
    (∀ (env : Env) (c : Cache) (t : ℚ) (base target k : String) (ttl : ℚ),
      Ev.wr k ttl ∈ (get_fiat_rate env c t base target).2.2 → ttl = CACHE_TTL_SECONDS)
    ∧ (∀ (env : Env) (c : Cache) (t : ℚ) (symbol vs k : String) (ttl : ℚ),
      Ev.wr k ttl ∈ (get_crypto_price env c t symbol vs).2.2 →
      (k = listKey ∧ ttl = 3600 * 24) ∨ (k = cryptoKey symbol vs ∧ ttl = CACHE_TTL_SECONDS))
    ∧ CACHE_TTL_SECONDS = 900
    ∧ (3600 * 24 : ℚ) = 86400 := by
  refine ⟨?_, ?_, by norm_num [CACHE_TTL_SECONDS], by norm_num⟩
  · intro env c t base target k ttl hmem
    cases hg : (cache_get c t (fiatKey base target)).1 with
    | some v0 =>
      exfalso
      unfold get_fiat_rate at hmem
      rw [hg] at hmem
      simp at hmem
    | none =>
      unfold get_fiat_rate fiatFetch at hmem
      rw [hg] at hmem
      dsimp only at hmem
      cases hf : env.fiat (pyUpper base) with
      | netError msg =>
        rw [hf] at hmem
        simp at hmem
      | httpError s =>
        rw [hf] at hmem
        simp at hmem
      | ok data =>
        rw [hf] at hmem
        dsimp only at hmem
        cases hp : fiatProcess data (pyUpper target) with
        | error e =>
          rw [hp] at hmem
          simp at hmem
        | ok rate =>
          rw [hp] at hmem
          simp at hmem
          exact hmem.2
  · intro env c t symbol vs k ttl hmem
    cases hg : (cache_get c t (cryptoKey symbol vs)).1 with
    | some v0 =>
      exfalso
      unfold get_crypto_price at hmem
      rw [hg] at hmem
      simp at hmem
    | none =>
      cases hm : CRYPTO_SYMBOL_MAP.lookup (pyUpper symbol) with
      | some coin_id =>
        rw [get_crypto_price_miss_mapped env c t symbol vs coin_id hg hm] at hmem
        unfold fastPath at hmem
        cases hp : env.price coin_id (pyLower vs) with
        | netError msg =>
          rw [hp] at hmem
          simp at hmem
        | httpError s =>
          rw [hp] at hmem
          simp at hmem
        | ok data =>
          rw [hp] at hmem
          dsimp only at hmem
          cases hpo : priceOf data coin_id (pyLower vs) with
          | none =>
            rw [hpo] at hmem
            simp at hmem
          | some p =>
            rw [hpo] at hmem
            simp at hmem
            exact .inr hmem
      | none =>
        rw [get_crypto_price_miss_unmapped env c t symbol vs hg hm] at hmem
        unfold fallbackPath at hmem
        cases hl : (cache_get (cache_get c t (cryptoKey symbol vs)).2 t listKey).1 with
        | some v1 =>
          cases v1 with
          | num q =>
            exfalso
            rw [hl] at hmem
            simp at hmem
          | list L =>
            rw [hl] at hmem
            dsimp only at hmem
            have h := fallbackSearch_writes env _ t (cryptoKey symbol vs)
              (pyUpper symbol) (pyLower vs) L [] k ttl hmem
            rcases h with h | h
            · simp at h
            · exact .inr h
        | none =>
          rw [hl] at hmem
          dsimp only at hmem
          cases hcat : env.catalog with
          | netError msg =>
            exfalso
            rw [hcat] at hmem
            simp at hmem
          | httpError s =>
            exfalso
            rw [hcat] at hmem
            simp at hmem
          | ok lst =>
            rw [hcat] at hmem
            dsimp only at hmem
            have h := fallbackSearch_writes env _ t (cryptoKey symbol vs)
              (pyUpper symbol) (pyLower vs) lst
              [Ev.req Req.catalog, Ev.wr listKey (3600 * 24)] k ttl hmem
            rcases h with h | h
            · simp at h
              exact .inl h
            · exact .inr h

/-- [C10, witness] The write-TTL characterization applied to two concrete
writes: the fiat write of `("usd","eur")` (default TTL) and the catalog write
of the failing "FOO" resolution (24-hour TTL). -/
theorem cache_write_ttls_witness :
    CACHE_TTL_SECONDS = CACHE_TTL_SECONDS
    ∧ ((listKey = listKey ∧ (3600 * 24 : ℚ) = 3600 * 24)
      ∨ (listKey = cryptoKey "FOO" "usd" ∧ (3600 * 24 : ℚ) = CACHE_TTL_SECONDS)) := by
  constructor
  · refine cache_write_ttls.1 envFiatA emptyCache 0 "usd" "eur" (fiatKey "usd" "eur")
      CACHE_TTL_SECONDS ?_
    rw [get_fiat_rate_fetch_ok envFiatA emptyCache 0 "usd" "eur"
      ⟨"success", some [("EUR", (9 : ℚ)/10)], none⟩ ((9 : ℚ)/10) (by decide) rfl (by rfl)]
    simp
  · refine cache_write_ttls.2.1 envCryptoBare emptyCache 0 "FOO" "usd" listKey (3600 * 24) ?_
    have e1 := get_crypto_price_miss_unmapped envCryptoBare emptyCache 0 "FOO" "usd"
      (by decide) (by decide)
    rw [e1]
    have hfs : findSymbol [CatalogEntry.mk "bar-coin" "bar"] "FOO" = none := by decide
    norm_num [fallbackPath, fallbackSearch, cache_get, cache_set, emptyCache,
      envCryptoBare, listKey, hfs]

/- ------------------------------------------------------------------ -/
/- Conversion endpoints (`/convert`, `/crypto`) and C8.               -/
/- ------------------------------------------------------------------ -/

/-- Python's builtin `round(x, 8)` on exact rationals: round to the nearest
integer multiple of `10 ^ (-8)`, ties to the even multiple. -/
def pyRoundHalfEven (q : ℚ) : ℤ :=
  if q - ⌊q⌋ < 1/2 then ⌊q⌋
  else if 1/2 < q - ⌊q⌋ then ⌊q⌋ + 1
  else if ⌊q⌋ % 2 = 0 then ⌊q⌋ else ⌊q⌋ + 1

/-- `round(q, 8)` from lines 199 and 226. -/
def round8 (q : ℚ) : ℚ := pyRoundHalfEven (q * 10 ^ 8) / 10 ^ 8

set_option linter.unusedTactic false

theorem pyRoundHalfEven_abs_le (q : ℚ) : |(pyRoundHalfEven q : ℚ) - q| ≤ 1/2 := by
  have h0 : (⌊q⌋ : ℚ) ≤ q := Int.floor_le q
  have h1 : q < ⌊q⌋ + 1 := Int.lt_floor_add_one q
  unfold pyRoundHalfEven
  split_ifs with ha hb hc <;> rw [abs_le] <;> constructor <;> push_cast <;> linarith

set_option linter.unusedTactic true

/-- `round8` returns an integer multiple of `10 ^ (-8)` within half an ulp of
its argument. -/
theorem round8_spec (q : ℚ) :
    (∃ n : ℤ, round8 q = n / 10 ^ 8) ∧ |round8 q - q| ≤ 1 / (2 * 10 ^ 8) := by
  constructor
  · exact ⟨pyRoundHalfEven (q * 10 ^ 8), rfl⟩
  · have h := pyRoundHalfEven_abs_le (q * 10 ^ 8)
    rw [abs_le] at h ⊢
    unfold round8
    constructor <;> [linarith [h.1]; linarith [h.2]]

/-- The `/convert` response body (`from` and `to` are reserved-ish words, hence
the longer field names). -/
structure ConvertResponse where
  from_currency : String
  to_currency : String
  amount : ℚ
  rate : ℚ
  converted_amount : ℚ
deriving DecidableEq, Repr

/-- The `/crypto` response body. -/
structure CryptoConvertResponse where
  symbol : String
  vs_currency : String
  amount : ℚ
  price_per_unit : ℚ
  converted_amount : ℚ
deriving DecidableEq, Repr

/-- The `/convert` handler: resolve the rate, multiply, round to 8 decimal
places.  A `.list` value coming back from the resolver (possible only from a
poisoned cache) would make `round(amount * rate, 8)` raise a `TypeError`
outside any handler — the framework's blanket 500. -/
def convert (env : Env) (c : Cache) (t : ℚ) (from_currency to_currency : String) (amount : ℚ) :
    Except HTTPException ConvertResponse × Cache × List Ev :=
  match (get_fiat_rate env c t from_currency to_currency).1 with
  | .error e => (.error e, (get_fiat_rate env c t from_currency to_currency).2)
  | .ok (.num rate) =>
    (.ok ⟨pyUpper from_currency, pyUpper to_currency, amount, rate, round8 (amount * rate)⟩,
     (get_fiat_rate env c t from_currency to_currency).2)
  | .ok (.list _) =>
    (.error ⟨500, "Internal Server Error"⟩,
     (get_fiat_rate env c t from_currency to_currency).2)

/-- The `/crypto` handler. -/
def crypto_convert (env : Env) (c : Cache) (t : ℚ) (symbol vs_currency : String) (amount : ℚ) :
    Except HTTPException CryptoConvertResponse × Cache × List Ev :=
  match (get_crypto_price env c t symbol vs_currency).1 with
  | .error e => (.error e, (get_crypto_price env c t symbol vs_currency).2)
  | .ok (.num price) =>
    (.ok ⟨pyUpper symbol, pyLower vs_currency, amount, price, round8 (amount * price)⟩,
     (get_crypto_price env c t symbol vs_currency).2)
  | .ok (.list _) =>
    (.error ⟨500, "Internal Server Error"⟩,
     (get_crypto_price env c t symbol vs_currency).2)

/-- [C8] Every successful `/convert` (resp. `/crypto`) response has
`converted_amount = round(amount * rate, 8)` (resp. `amount * price_per_unit`):
an integer multiple of `10 ^ (-8)` within half an ulp of the exact product.
The particular instance amount = 100, rate = 0.9 produces exactly 90 (this
also holds bit-exactly in binary64: `100 * 0.9` rounds to the double `90.0`). -/
theorem conversion_rounds_to_8_decimals :
    (∀ (env : Env) (c : Cache) (t : ℚ) (f tg : String) (amount : ℚ) (resp : ConvertResponse),
      (convert env c t f tg amount).1 = .ok resp →
      resp.converted_amount = round8 (resp.amount * resp.rate)
      ∧ (∃ n : ℤ, resp.converted_amount = n / 10 ^ 8)
      ∧ |resp.converted_amount - resp.amount * resp.rate| ≤ 1 / (2 * 10 ^ 8))
    ∧ (∀ (env : Env) (c : Cache) (t : ℚ) (sym vsc : String) (amount : ℚ)
        (resp : CryptoConvertResponse),
      (crypto_convert env c t sym vsc amount).1 = .ok resp →
      resp.converted_amount = round8 (resp.amount * resp.price_per_unit)
      ∧ (∃ n : ℤ, resp.converted_amount = n / 10 ^ 8)
      ∧ |resp.converted_amount - resp.amount * resp.price_per_unit| ≤ 1 / (2 * 10 ^ 8))
    ∧ (convert envFiatA emptyCache 0 "usd" "eur" 100).1
        = .ok ⟨"USD", "EUR", 100, 9/10, 90⟩ := by
  refine ⟨?_, ?_, ?_⟩
  · intro env c t f tg amount resp h
    unfold convert at h
    cases hg : (get_fiat_rate env c t f tg).1 with
    | error e =>
      rw [hg] at h
      simp at h
    | ok v =>
      cases v with
      | num rate =>
        rw [hg] at h
        dsimp only at h
        have hr : resp = ⟨pyUpper f, pyUpper tg, amount, rate, round8 (amount * rate)⟩ :=
          ((Except.ok.injEq _ _).mp h).symm
        subst hr
        dsimp only
        exact ⟨rfl, (round8_spec (amount * rate)).1, (round8_spec (amount * rate)).2⟩
      | list L =>
        rw [hg] at h
        simp at h
  · intro env c t sym vsc amount resp h
    unfold crypto_convert at h
    cases hg : (get_crypto_price env c t sym vsc).1 with
    | error e =>
      rw [hg] at h
      simp at h
    | ok v =>
      cases v with
      | num price =>
        rw [hg] at h
        dsimp only at h
        have hr : resp = ⟨pyUpper sym, pyLower vsc, amount, price, round8 (amount * price)⟩ :=
          ((Except.ok.injEq _ _).mp h).symm
        subst hr
        dsimp only
        exact ⟨rfl, (round8_spec (amount * price)).1, (round8_spec (amount * price)).2⟩
      | list L =>
        rw [hg] at h
        simp at h
  · have e1 := get_fiat_rate_fetch_ok envFiatA emptyCache 0 "usd" "eur"
      ⟨"success", some [("EUR", (9 : ℚ)/10)], none⟩ ((9 : ℚ)/10) (by decide) rfl (by rfl)
    unfold convert
    rw [e1]
    dsimp only
    norm_num [round8, pyRoundHalfEven]

/-- [C8, witness] The rounding facts instantiated at two successful concrete
conversions: `/convert` with amount 100 and rate 0.9 (converted 90), and
`/crypto` with amount 0.5 and price 42 (converted 21, via the "FOO" catalog
fallback). -/
theorem conversion_rounds_to_8_decimals_witness :
    ((90 : ℚ) = round8 (100 * (9/10))
      ∧ (∃ n : ℤ, (90 : ℚ) = n / 10 ^ 8)
      ∧ |(90 : ℚ) - 100 * (9/10)| ≤ 1 / (2 * 10 ^ 8))
    ∧ ((21 : ℚ) = round8 ((1/2) * 42)
      ∧ (∃ n : ℤ, (21 : ℚ) = n / 10 ^ 8)
      ∧ |(21 : ℚ) - (1/2) * 42| ≤ 1 / (2 * 10 ^ 8)) := by
  constructor
  · exact conversion_rounds_to_8_decimals.1 envFiatA emptyCache 0 "usd" "eur" 100
      ⟨"USD", "EUR", 100, 9/10, 90⟩ conversion_rounds_to_8_decimals.2.2
  · refine conversion_rounds_to_8_decimals.2.1 envCryptoCatalog emptyCache 0 "FOO" "usd" (1/2)
      ⟨"FOO", "usd", 1/2, 42, 21⟩ ?_
    have e1 := get_crypto_price_miss_unmapped envCryptoCatalog emptyCache 0 "FOO" "usd"
      (by decide) (by decide)
    have hfs : findSymbol [CatalogEntry.mk "bar-coin" "bar", CatalogEntry.mk "foo-coin" "foo",
        CatalogEntry.mk "foo-coin-2" "foo"] "FOO" = some "foo-coin" := by decide
    have hpo : priceOf [("foo-coin", [("usd", (42 : ℚ))])] "foo-coin" "usd" = some 42 := by
      decide
    have hne : ¬ ("foo-coin" = "") := by decide
    unfold crypto_convert
    rw [e1]
    norm_num [fallbackPath, fallbackSearch, cache_get, cache_set, emptyCache,
      envCryptoCatalog, listKey, hfs, hpo, hne, round8, pyRoundHalfEven]
